import Mathlib

/-!
Shallow embedding of the local-sns emulator (src/state.rs, src/handlers.rs).

String processing is modelled on `List Char` with functions that mirror the
Rust standard-library operations used by the source (`str::starts_with`,
`str::split`, `usize::from_str`, `rsplitn`), so that the decoder and the
ARN-to-topic-name derivation can be reasoned about and also evaluated on
concrete inputs.  The concurrent `DashMap<String, Topic>` registry is
modelled as an association list with overwrite-insert, and handler results
as an explicit result type (`success` renders as HTTP 200, `error` carries
the code, message and status the handler passes to `error_response`).
Freshly generated UUIDs (message ids) are passed in as parameters, and the
downstream SQS delivery outcome is an oracle `Subscription → Bool`.
-/

namespace Sns

/-! ### Character-list primitives mirroring the Rust string operations -/

/-- Rust `str::starts_with` on the underlying character lists. -/
def isPrefixList : List Char → List Char → Bool
  | [], _ => true
  | _ :: _, [] => false
  | p :: ps, c :: cs => p == c && isPrefixList ps cs

/-- `s.starts_with(p)` from the source. -/
def startsWithStr (s p : String) : Bool := isPrefixList p.data s.data

/-- Accumulator-based splitter: Rust `str::split(sep)` keeps empty segments
and yields one more segment than there are separators. -/
def splitChAux (sep : Char) : List Char → List Char → List (List Char)
  | [], acc => [acc.reverse]
  | c :: cs, acc =>
    if c == sep then acc.reverse :: splitChAux sep cs []
    else splitChAux sep cs (c :: acc)

/-- Rust `key.split(sep).collect::<Vec<_>>()`. -/
def splitCh (sep : Char) (s : String) : List String :=
  (splitChAux sep s.data []).map String.mk

/-- Rust `usize::from_str` skips one optional leading `'+'`. -/
def stripPlus (l : List Char) : List Char :=
  match l with
  | c :: rest => if c = '+' then rest else c :: rest
  | [] => []

/-- Decimal value of a digit string. -/
def digitsVal (l : List Char) : Nat :=
  l.foldl (fun a c => a * 10 + (c.toNat - 48)) 0

/-- Rust `s.parse::<usize>()`: an optional `'+'`, then one or more ASCII
digits, failing on overflow of the 64-bit `usize`. -/
def parseUsize (s : String) : Option Nat :=
  let ds := stripPlus s.data
  if ds.isEmpty then none
  else if ds.all Char.isDigit then
    if digitsVal ds < 2 ^ 64 then some (digitsVal ds) else none
  else none

/-- Rust `s.split(':').last().unwrap_or_default()`: the suffix after the
last colon (the whole string if there is none). -/
def lastColonSegmentList (l : List Char) : List Char :=
  l.foldl (fun acc c => if c == ':' then [] else acc ++ [c]) []

/-- `topic_arn.split(':').last().unwrap_or_default()` from the handlers. -/
def lastColonSegment (s : String) : String :=
  String.mk (lastColonSegmentList s.data)

/-- Rust `s.rsplitn(2, ':').nth(1).unwrap_or_default()`: everything before
the last colon, or `""` when the string has no colon. -/
def stripLastColonSegment (s : String) : String :=
  String.mk (((s.data.reverse.dropWhile (fun c => c != ':')).drop 1).reverse)

/-- In-place update of one list element (Rust `tags[index - 1].key = value`). -/
def listModify (f : α → α) : Nat → List α → List α
  | _, [] => []
  | 0, a :: as => f a :: as
  | n + 1, a :: as => a :: listModify f n as

/-! ### Data model (src/state.rs) -/

/-- `Subscription` from src/state.rs. -/
structure Subscription where
  endpoint : String
  protocol : String
  arn : String
  subscription_arn : String
deriving DecidableEq

/-- `Topic` from src/state.rs.  The `HashMap<String, String>` of tags is
modelled as an association list whose insert overwrites the value of an
existing key. -/
structure Topic where
  name : String
  arn : String
  tags : List (String × String)
  subscriptions : List Subscription
  display_name : Option String
  policy : Option String
  delivery_policy : Option String
  tracing_config : Option String
  firehose_failure_feedback_role_arn : Option String
  firehose_success_feedback_role_arn : Option String
  firehose_success_feedback_sample_rate : Option String
  http_failure_feedback_role_arn : Option String
  sqs_failure_feedback_role_arn : Option String
  sqs_success_feedback_role_arn : Option String
  sqs_success_feedback_sample_rate : Option String
  http_success_feedback_role_arn : Option String
  http_success_feedback_sample_rate : Option String
  application_failure_feedback_role_arn : Option String
  application_success_feedback_role_arn : Option String
  application_success_feedback_sample_rate : Option String
  lambda_failure_feedback_role_arn : Option String
  lambda_success_feedback_role_arn : Option String
  lambda_success_feedback_sample_rate : Option String
  kms_master_key_id : Option String
  signature_version : Option String
  content_based_deduplication : Option String
  fifo_topic : Option String
  archive_policy : Option String
  fifo_throughput_scope : Option String
deriving DecidableEq

/-- The `DashMap<String, Topic>` registry, as an association list. -/
abbrev Registry := List (String × Topic)

/-- `state.topics.get(name)`. -/
def regGet (r : Registry) (k : String) : Option Topic :=
  (r.find? (fun p => p.1 == k)).map (·.2)

/-- `state.topics.insert(name, topic)`: overwrite an existing binding,
append otherwise. -/
def regInsert (r : Registry) (k : String) (t : Topic) : Registry :=
  if r.any (fun p => p.1 == k) then
    r.map (fun p => if p.1 == k then (k, t) else p)
  else r ++ [(k, t)]

/-- `HashMap::insert` on the tag map: overwrite an existing key. -/
def mapInsert (m : List (String × String)) (k v : String) : List (String × String) :=
  if m.any (fun p => p.1 == k) then
    m.map (fun p => if p.1 == k then (k, v) else p)
  else m ++ [(k, v)]

/-- `AttributeEntry` from src/state.rs (`Default` is two empty strings). -/
structure AttributeEntry where
  key : String
  value : String
deriving DecidableEq

/-- `TagEntry` from src/state.rs (`Default` is two empty strings). -/
structure TagEntry where
  key : String
  value : String
deriving DecidableEq

/-- `SnsRequest` from src/state.rs: the flat scalar fields plus the three
flattened repeating groups, each already decoded. -/
structure SnsRequest where
  action : String
  name : Option String := none
  topic_arn : Option String := none
  resource_arn : Option String := none
  endpoint : Option String := none
  protocol : Option String := none
  subscription_arn : Option String := none
  message : Option String := none
  subject : Option String := none
  attribute_name : Option String := none
  attribute_value : Option String := none
  attributes_entry : Option (List AttributeEntry) := none
  tags_entry : Option (List TagEntry) := none
  tag_keys_entry : Option (List String) := none

/-! ### Field-group decoders (src/state.rs, `deserialize_attributes`,
`deserialize_tags`, `deserialize_tag_keys`).  Each visitor walks the full
submitted key/value multimap in submission order. -/

/-- One visitor iteration of `deserialize_tags`: keys `Tags.member.<n>.Key`
and `Tags.member.<n>.Value`, 1-based index, pad with default entries, and
silently drop a key whose index parses to `0` (or fails to parse:
`parse::<usize>().unwrap_or(0)`). -/
def tagsStep (tags : List TagEntry) (kv : String × String) : List TagEntry :=
  if startsWithStr kv.1 "Tags.member." then
    match splitCh '.' kv.1 with
    | [_, _, idxStr, field] =>
      let index := (parseUsize idxStr).getD 0
      if 0 < index then
        let padded := tags ++ List.replicate (index - tags.length) ⟨"", ""⟩
        if field = "Key" then
          listModify (fun e => { e with key := kv.2 }) (index - 1) padded
        else if field = "Value" then
          listModify (fun e => { e with value := kv.2 }) (index - 1) padded
        else padded
      else tags
    | _ => tags
  else tags

/-- `deserialize_tags`: fold the visitor over the form, `None` when no
entry was assembled. -/
def deserialize_tags (form : List (String × String)) : Option (List TagEntry) :=
  let tags := form.foldl tagsStep []
  if tags.isEmpty then none else some tags

/-- One visitor iteration of `deserialize_tag_keys`: keys
`TagKeys.member.<n>` (three dot-separated segments), 1-based, padded with
empty strings. -/
def tagKeysStep (keys : List String) (kv : String × String) : List String :=
  if startsWithStr kv.1 "TagKeys.member." then
    match splitCh '.' kv.1 with
    | [_, _, idxStr] =>
      let index := (parseUsize idxStr).getD 0
      if 0 < index then
        (keys ++ List.replicate (index - keys.length) "").set (index - 1) kv.2
      else keys
    | _ => keys
  else keys

/-- `deserialize_tag_keys`. -/
def deserialize_tag_keys (form : List (String × String)) : Option (List String) :=
  let keys := form.foldl tagKeysStep []
  if keys.isEmpty then none else some keys

/-- One visitor iteration of `deserialize_attributes`: keys
`Attributes.entry.<n>.key` / `Attributes.entry.<n>.value` (lower case
subfields in the source). -/
def attributesStep (attrs : List AttributeEntry) (kv : String × String) : List AttributeEntry :=
  if startsWithStr kv.1 "Attributes.entry." then
    match splitCh '.' kv.1 with
    | [_, _, idxStr, field] =>
      let index := (parseUsize idxStr).getD 0
      if 0 < index then
        let padded := attrs ++ List.replicate (index - attrs.length) ⟨"", ""⟩
        if field = "key" then
          listModify (fun e => { e with key := kv.2 }) (index - 1) padded
        else if field = "value" then
          listModify (fun e => { e with value := kv.2 }) (index - 1) padded
        else padded
      else attrs
    | _ => attrs
  else attrs

/-- `deserialize_attributes`. -/
def deserialize_attributes (form : List (String × String)) : Option (List AttributeEntry) :=
  let attrs := form.foldl attributesStep []
  if attrs.isEmpty then none else some attrs

/-! ### Handler results -/

/-- A handler outcome: `success` renders the `{Action}Response` envelope
with HTTP status 200; `error` is `error_response(code, message, status)`
from src/error.rs. -/
inductive HResult (α : Type) where
  | error (code message : String) (status : Nat)
  | success (payload : α)
deriving DecidableEq

/-- The fixed pseudo-account ARN prefix used by `create_topic`
(`format!("arn:aws:sns:us-east-1:000000000000:{}", name)`). -/
def topicArnBase : String := "arn:aws:sns:us-east-1:000000000000:"

/-! ### Handlers (src/handlers.rs) -/

/-- The tag map `create_topic` builds from the decoded `Tags.member` group. -/
def buildTags : Option (List TagEntry) → List (String × String)
  | none => []
  | some tes => tes.foldl (fun m te => mapInsert m te.key te.value) []

/-- The `Topic` value constructed by `create_topic` (src/handlers.rs:424):
every attribute is `None` and the subscription list is empty. -/
def freshTopic (name : String) (tags_entry : Option (List TagEntry)) : Topic where
  name := name
  arn := topicArnBase ++ name
  tags := buildTags tags_entry
  subscriptions := []
  display_name := none
  policy := none
  delivery_policy := none
  tracing_config := none
  firehose_failure_feedback_role_arn := none
  firehose_success_feedback_role_arn := none
  firehose_success_feedback_sample_rate := none
  http_failure_feedback_role_arn := none
  sqs_failure_feedback_role_arn := none
  sqs_success_feedback_role_arn := none
  sqs_success_feedback_sample_rate := none
  http_success_feedback_role_arn := none
  http_success_feedback_sample_rate := none
  application_failure_feedback_role_arn := none
  application_success_feedback_role_arn := none
  application_success_feedback_sample_rate := none
  lambda_failure_feedback_role_arn := none
  lambda_success_feedback_role_arn := none
  lambda_success_feedback_sample_rate := none
  kms_master_key_id := none
  signature_version := none
  content_based_deduplication := none
  fifo_topic := none
  archive_policy := none
  fifo_throughput_scope := none

/-- `create_topic` (src/handlers.rs:403): validate the name, build a brand
new topic from the request and insert it under the name, overwriting any
existing topic wholesale. -/
def create_topic (state : Registry) (params : SnsRequest) : HResult String × Registry :=
  match params.name with
  | none => (.error "InvalidParameter" "Missing Topic Name" 400, state)
  | some name =>
    (.success (topicArnBase ++ name),
     regInsert state name (freshTopic name params.tags_entry))

/-- `unsubscribe` (src/handlers.rs:1070): derive the topic ARN by dropping
the trailing `:<token>` segment, then the topic name as the last colon
segment; 404 when the derived topic is missing, otherwise retain all
subscriptions whose ARN differs. -/
def unsubscribe (state : Registry) (params : SnsRequest) : HResult Unit × Registry :=
  match params.subscription_arn with
  | none => (.error "InvalidParameter" "Missing Subscription ARN" 400, state)
  | some subscription_arn =>
    let topic_arn := stripLastColonSegment subscription_arn
    let topic_name := lastColonSegment topic_arn
    match regGet state topic_name with
    | some t =>
      (.success (),
       regInsert state topic_name
         { t with subscriptions :=
             t.subscriptions.filter (fun s => s.subscription_arn != subscription_arn) })
    | none => (.error "NotFound" "Topic not found" 404, state)

/-- `publish` (src/handlers.rs:1117).  The fresh `Uuid` message id is the
`msgId` parameter; `deliver` is the outcome of each downstream
`send_message` call (only attempted for protocol `"sqs"`; the code matches
on the outcome solely to log it).  Besides the handler result we return
the observable per-subscription delivery log: `some b` for an attempted
SQS send with outcome `b`, `none` for a log-only protocol. -/
def publish (state : Registry) (params : SnsRequest)
    (deliver : Subscription → Bool) (msgId : String) :
    HResult String × List (Subscription × Option Bool) :=
  match params.topic_arn with
  | none => (.error "InvalidParameter" "Missing Topic ARN" 400, [])
  | some topic_arn =>
    let topic_name := lastColonSegment topic_arn
    match params.message with
    | none => (.error "InvalidParameter" "Missing message" 400, [])
    | some _ =>
      match regGet state topic_name with
      | some t =>
        (.success msgId,
         t.subscriptions.map (fun s =>
           (s, if s.protocol == "sqs" then some (deliver s) else none)))
      | none => (.error "NotFound" "Topic does not exist" 404, [])

/-- The attribute-name whitelist of `set_topic_attributes`
(src/handlers.rs:624-681), in source order. -/
def attrWhitelist : List String :=
  ["DisplayName", "Policy", "DeliveryPolicy", "TracingConfig",
   "FirehoseSuccessFeedbackSampleRate", "FirehoseFailureFeedbackRoleArn",
   "FirehoseSuccessFeedbackRoleArn", "HTTPFailureFeedbackRoleArn",
   "SQSSuccessFeedbackSampleRate", "SQSFailureFeedbackRoleArn",
   "SQSSuccessFeedbackRoleArn", "HTTPSuccessFeedbackSampleRate",
   "HTTPSuccessFeedbackRoleArn", "ApplicationSuccessFeedbackSampleRate",
   "ApplicationFailureFeedbackRoleArn", "ApplicationSuccessFeedbackRoleArn",
   "LambdaSuccessFeedbackSampleRate", "LambdaFailureFeedbackRoleArn",
   "LambdaSuccessFeedbackRoleArn", "KmsMasterKeyId", "SignatureVersion",
   "ContentBasedDeduplication", "FifoTopic", "ArchivePolicy",
   "FifoThroughputScope"]

/-- The attribute-name `match` of `set_topic_attributes`: `some` of the
updated topic for a whitelisted name, `none` for an unsupported one. -/
def applyAttr (t : Topic) (name value : String) : Option Topic :=
  if name = "DisplayName" then some { t with display_name := some value }
  else if name = "Policy" then some { t with policy := some value }
  else if name = "DeliveryPolicy" then some { t with delivery_policy := some value }
  else if name = "TracingConfig" then some { t with tracing_config := some value }
  else if name = "FirehoseSuccessFeedbackSampleRate" then
    some { t with firehose_success_feedback_sample_rate := some value }
  else if name = "FirehoseFailureFeedbackRoleArn" then
    some { t with firehose_failure_feedback_role_arn := some value }
  else if name = "FirehoseSuccessFeedbackRoleArn" then
    some { t with firehose_success_feedback_role_arn := some value }
  else if name = "HTTPFailureFeedbackRoleArn" then
    some { t with http_failure_feedback_role_arn := some value }
  else if name = "SQSSuccessFeedbackSampleRate" then
    some { t with sqs_success_feedback_sample_rate := some value }
  else if name = "SQSFailureFeedbackRoleArn" then
    some { t with sqs_failure_feedback_role_arn := some value }
  else if name = "SQSSuccessFeedbackRoleArn" then
    some { t with sqs_success_feedback_role_arn := some value }
  else if name = "HTTPSuccessFeedbackSampleRate" then
    some { t with http_success_feedback_sample_rate := some value }
  else if name = "HTTPSuccessFeedbackRoleArn" then
    some { t with http_success_feedback_role_arn := some value }
  else if name = "ApplicationSuccessFeedbackSampleRate" then
    some { t with application_success_feedback_sample_rate := some value }
  else if name = "ApplicationFailureFeedbackRoleArn" then
    some { t with application_failure_feedback_role_arn := some value }
  else if name = "ApplicationSuccessFeedbackRoleArn" then
    some { t with application_success_feedback_role_arn := some value }
  else if name = "LambdaSuccessFeedbackSampleRate" then
    some { t with lambda_success_feedback_sample_rate := some value }
  else if name = "LambdaFailureFeedbackRoleArn" then
    some { t with lambda_failure_feedback_role_arn := some value }
  else if name = "LambdaSuccessFeedbackRoleArn" then
    some { t with lambda_success_feedback_role_arn := some value }
  else if name = "KmsMasterKeyId" then some { t with kms_master_key_id := some value }
  else if name = "SignatureVersion" then some { t with signature_version := some value }
  else if name = "ContentBasedDeduplication" then
    some { t with content_based_deduplication := some value }
  else if name = "FifoTopic" then some { t with fifo_topic := some value }
  else if name = "ArchivePolicy" then some { t with archive_policy := some value }
  else if name = "FifoThroughputScope" then
    some { t with fifo_throughput_scope := some value }
  else none

/-- `set_topic_attributes` (src/handlers.rs:584): required parameters in
source order, 404 on a missing topic, 400 `InvalidParameter` with message
"Attribute not supported" on a name outside the whitelist (with no
mutation). -/
def set_topic_attributes (state : Registry) (params : SnsRequest) :
    HResult Unit × Registry :=
  match params.topic_arn with
  | none => (.error "InvalidParameter" "Missing Topic ARN" 400, state)
  | some topic_arn =>
    match params.attribute_name with
    | none => (.error "InvalidParameter" "Missing Attribute Name" 400, state)
    | some attribute_name =>
      match params.attribute_value with
      | none => (.error "InvalidParameter" "Missing Attribute Value" 400, state)
      | some attribute_value =>
        let topic_name := lastColonSegment topic_arn
        match regGet state topic_name with
        | none => (.error "NotFound" "Topic not found" 404, state)
        | some t =>
          match applyAttr t attribute_name attribute_value with
          | some t2 => (.success (), regInsert state topic_name t2)
          | none => (.error "InvalidParameter" "Attribute not supported" 400, state)

/-- One optional `<entry>` of the `get_topic_attributes` rendering. -/
def optEntry (k : String) : Option String → List (String × String)
  | some v => [(k, v)]
  | none => []

/-- The canned empty-policy JSON `get_topic_attributes` renders when no
policy was set (src/handlers.rs:764). -/
def defaultPolicy : String :=
  "\x7b\"Version\":\"2012-10-17\",\"Id\":\"__default_policy_ID\",\"Statement\":[]\x7d"

/-- The `<Attributes>` map rendered by `get_topic_attributes`
(src/handlers.rs:748-967), in source order: required entries always
present (`Policy` and the four sample rates fall back to defaults), plus
the three subscription counters at the end. -/
def renderTopicAttributes (t : Topic) : List (String × String) :=
  [("TopicArn", t.arn)]
  ++ optEntry "DisplayName" t.display_name
  ++ [("Policy", t.policy.getD defaultPolicy)]
  ++ optEntry "DeliveryPolicy" t.delivery_policy
  ++ optEntry "TracingConfig" t.tracing_config
  ++ optEntry "FirehoseFailureFeedbackRoleArn" t.firehose_failure_feedback_role_arn
  ++ optEntry "FirehoseSuccessFeedbackRoleArn" t.firehose_success_feedback_role_arn
  ++ [("FirehoseSuccessFeedbackSampleRate", t.firehose_success_feedback_sample_rate.getD "0")]
  ++ optEntry "HTTPFailureFeedbackRoleArn" t.http_failure_feedback_role_arn
  ++ optEntry "SQSFailureFeedbackRoleArn" t.sqs_failure_feedback_role_arn
  ++ optEntry "SQSSuccessFeedbackRoleArn" t.sqs_success_feedback_role_arn
  ++ [("SQSSuccessFeedbackSampleRate", t.sqs_success_feedback_sample_rate.getD "0")]
  ++ optEntry "HTTPSuccessFeedbackRoleArn" t.http_success_feedback_role_arn
  ++ [("HTTPSuccessFeedbackSampleRate", t.http_success_feedback_sample_rate.getD "0")]
  ++ optEntry "ApplicationFailureFeedbackRoleArn" t.application_failure_feedback_role_arn
  ++ optEntry "ApplicationSuccessFeedbackRoleArn" t.application_success_feedback_role_arn
  ++ [("ApplicationSuccessFeedbackSampleRate", t.application_success_feedback_sample_rate.getD "0")]
  ++ optEntry "LambdaFailureFeedbackRoleArn" t.lambda_failure_feedback_role_arn
  ++ optEntry "LambdaSuccessFeedbackRoleArn" t.lambda_success_feedback_role_arn
  ++ [("LambdaSuccessFeedbackSampleRate", t.lambda_success_feedback_sample_rate.getD "0")]
  ++ optEntry "KmsMasterKeyId" t.kms_master_key_id
  ++ optEntry "SignatureVersion" t.signature_version
  ++ optEntry "ContentBasedDeduplication" t.content_based_deduplication
  ++ optEntry "FifoTopic" t.fifo_topic
  ++ optEntry "ArchivePolicy" t.archive_policy
  ++ optEntry "FifoThroughputScope" t.fifo_throughput_scope
  ++ [("SubscriptionsConfirmed", toString t.subscriptions.length),
      ("SubscriptionsPending", "0"),
      ("SubscriptionsDeleted", "0")]

/-- `get_topic_attributes` (src/handlers.rs:719): read-only; 404 when the
topic derived from the ARN's last colon segment is missing. -/
def get_topic_attributes (state : Registry) (params : SnsRequest) :
    HResult (List (String × String)) :=
  match params.topic_arn with
  | none => .error "InvalidParameter" "Missing Topic ARN" 400
  | some topic_arn =>
    match regGet state (lastColonSegment topic_arn) with
    | some t => .success (renderTopicAttributes t)
    | none => .error "NotFound" "Topic not found" 404

/-- `tag_resource` (src/handlers.rs:288): requires the resource ARN and a
present (decoded) tag group, then merges the tags into the topic by key. -/
def tag_resource (state : Registry) (params : SnsRequest) : HResult Unit × Registry :=
  match params.resource_arn with
  | none => (.error "InvalidParameter" "Missing Resource Arn" 400, state)
  | some resource_arn =>
    match params.tags_entry with
    | none => (.error "InvalidParameter" "Missing Tags" 400, state)
    | some tags_entry =>
      let topic_name := lastColonSegment resource_arn
      match regGet state topic_name with
      | some t =>
        (.success (),
         regInsert state topic_name
           { t with tags := tags_entry.foldl (fun m te => mapInsert m te.key te.value) t.tags })
      | none => (.error "NotFound" "Resource not found" 404, state)

/-! ### Lock-lifetime trace of `publish` (src/handlers.rs:1150-1203).

`state.topics.get(topic_name)` returns a DashMap read guard whose lifetime
in the source is the whole `if let Some(topic) = ...` block: the
per-subscription loop, including the awaited `send_message` calls, runs
before the guard is dropped at the block's closing brace.  `publishEvents`
records that order of lock and delivery events literally. -/

/-- One observable event of the `publish` handler's critical section. -/
inductive PubEvent where
  | lockAcquire (topicName : String)
  | sqsSend (queueUrl body : String)
  | logDelivery (endpoint : String)
  | lockRelease (topicName : String)
deriving DecidableEq

/-- The sequence of registry-lock and delivery events `publish` performs,
in source order: the guard is acquired by `get`, every subscription is
processed inside the guarded block, and the guard is released only after
the loop. -/
def publishEvents (state : Registry) (params : SnsRequest) : List PubEvent :=
  match params.topic_arn with
  | none => []
  | some topic_arn =>
    let topic_name := lastColonSegment topic_arn
    match params.message with
    | none => []
    | some body =>
      match regGet state topic_name with
      | some t =>
        PubEvent.lockAcquire topic_name ::
          (t.subscriptions.map (fun s =>
            if s.protocol == "sqs" then PubEvent.sqsSend s.endpoint body
            else PubEvent.logDelivery s.endpoint))
          ++ [PubEvent.lockRelease topic_name]
      | none => []

/-! ### Decoder-facing predicates and specification functions -/

/-- A key from which the tags group assembles (part of) a record: correct
prefix, four dot-separated segments, and a positive index. -/
def tagsMatch (k : String) : Bool :=
  startsWithStr k "Tags.member." &&
    (match splitCh '.' k with
     | [_, _, idxStr, _] => decide (0 < (parseUsize idxStr).getD 0)
     | _ => false)

/-- A key matched by the tag-keys group. -/
def tagKeysMatch (k : String) : Bool :=
  startsWithStr k "TagKeys.member." &&
    (match splitCh '.' k with
     | [_, _, idxStr] => decide (0 < (parseUsize idxStr).getD 0)
     | _ => false)

/-- A key matched by the attributes group. -/
def attributesMatch (k : String) : Bool :=
  startsWithStr k "Attributes.entry." &&
    (match splitCh '.' k with
     | [_, _, idxStr, _] => decide (0 < (parseUsize idxStr).getD 0)
     | _ => false)

/-- A key whose index segment is `0` or fails to parse as a `usize`
(`parse::<usize>().unwrap_or(0)` yields `0`), in either the four-segment
or the three-segment group shape. -/
def badIdxKey (k : String) : Bool :=
  match splitCh '.' k with
  | [_, _, idxStr, _] => (parseUsize idxStr).getD 0 == 0
  | [_, _, idxStr] => (parseUsize idxStr).getD 0 == 0
  | _ => false

/-- The keys claim C7 says are silently dropped: a key of some recognized
group whose index segment is `0` or not a decimal integer, or a key
belonging to no recognized group at all. -/
def droppedKey (k : String) : Prop :=
  (startsWithStr k "Tags.member." = true ∧ badIdxKey k = true) ∨
  (startsWithStr k "TagKeys.member." = true ∧ badIdxKey k = true) ∨
  (startsWithStr k "Attributes.entry." = true ∧ badIdxKey k = true) ∨
  (startsWithStr k "Tags.member." = false ∧
   startsWithStr k "TagKeys.member." = false ∧
   startsWithStr k "Attributes.entry." = false)

/-- One abstract submitted field of the `Tags.member` group: the raw index
segment, the index value it denotes, the subfield (`true` for `Key`,
`false` for `Value`), and the submitted value. -/
structure TagItem where
  idxStr : String
  idx : Nat
  fld : Bool
  val : String
deriving DecidableEq

/-- The subfield name of a tag item. -/
def fldStr (b : Bool) : String := if b then "Key" else "Value"

/-- The form key `Tags.member.<idxStr>.<fld>`. -/
def mkTagKey (idxStr fld : String) : String :=
  "Tags.member." ++ idxStr ++ "." ++ fld

/-- The form pair a tag item stands for. -/
def tagItemPair (it : TagItem) : String × String :=
  (mkTagKey it.idxStr (fldStr it.fld), it.val)

/-- The value submitted for subfield `b` of index `i`, or `""` when that
subfield was not supplied. -/
def lookupField (items : List TagItem) (i : Nat) (b : Bool) : String :=
  ((items.find? (fun it => it.idx == i && it.fld == b)).map TagItem.val).getD ""

/-- The record the decoder is expected to assemble at 0-based position
`j`: the two subfields submitted for index `j + 1`, empty when missing. -/
def expectedTag (items : List TagItem) (j : Nat) : TagEntry :=
  ⟨lookupField items (j + 1) true, lookupField items (j + 1) false⟩

/-- The greatest submitted index. -/
def maxIdx (items : List TagItem) : Nat :=
  items.foldl (fun a it => max a it.idx) 0

/-- The fully assembled, index-ordered, gap-filled tag list. -/
def specTags (items : List TagItem) : List TagEntry :=
  (List.range (maxIdx items)).map (expectedTag items)

/-- The write `tags[index - 1].key = value` / `.value = value` performed by
the decoder for the subfield selected by `b`. -/
def setFld (b : Bool) (v : String) (e : TagEntry) : TagEntry :=
  if b then { e with key := v } else { e with value := v }

/-- The out-of-order submission of claim C3:
`Tags.member.2.Key=b, Tags.member.2.Value=2, Tags.member.1.Key=a,
Tags.member.1.Value=1`. -/
def items2 : List TagItem :=
  [⟨"2", 2, true, "b"⟩, ⟨"2", 2, false, "2"⟩, ⟨"1", 1, true, "a"⟩, ⟨"1", 1, false, "1"⟩]

/-- The sparse submission of claim C3: only `Tags.member.3.Key=c`. -/
def items3 : List TagItem := [⟨"3", 3, true, "c"⟩]

/-! ### Concrete example data used by witnesses and counterexamples -/

/-- A subscription of topic `a`, as produced by `subscribe` with protocol
`sqs`. -/
def sub0 : Subscription where
  endpoint := "http://localhost:4566/queue/q"
  protocol := "sqs"
  arn := topicArnBase ++ "a"
  subscription_arn := topicArnBase ++ "a:tok1"

/-- Topic `a` carrying one subscription. -/
def t0 : Topic := { freshTopic "a" none with subscriptions := [sub0] }

/-- A registry holding only topic `a`. -/
def reg0 : Registry := [("a", t0)]

/-- An `Unsubscribe` request for a token never issued on topic `a`. -/
def reqUnsubTok2 : SnsRequest :=
  { action := "Unsubscribe", subscription_arn := some (topicArnBase ++ "a:tok2") }

/-- A `Publish` request for topic `a`. -/
def reqPublishA : SnsRequest :=
  { action := "Publish", topic_arn := some (topicArnBase ++ "a"), message := some "hello" }

/-- A `SetTopicAttributes` request with an unsupported attribute name. -/
def reqSetBogus : SnsRequest :=
  { action := "SetTopicAttributes", topic_arn := some (topicArnBase ++ "a"), attribute_name := some "Bogus", attribute_value := some "x" }

/-- A `GetTopicAttributes` request for topic `a`. -/
def reqGetA : SnsRequest :=
  { action := "GetTopicAttributes", topic_arn := some (topicArnBase ++ "a") }

/-! ### Lemmas -/

theorem data_append (s t : String) : (s ++ t).data = s.data ++ t.data := rfl

theorem isPrefixList_append_self (p r : List Char) : isPrefixList p (p ++ r) = true := by
  induction p with
  | nil => rfl
  | cons a as ih => simp [isPrefixList, ih]

theorem isPrefixList_iff_exists : ∀ (p l : List Char),
    isPrefixList p l = true ↔ ∃ r, l = p ++ r
  | [], l => by simp [isPrefixList]
  | _ :: _, [] => by simp [isPrefixList]
  | a :: as, b :: bs => by
    simp only [isPrefixList, Bool.and_eq_true, beq_iff_eq, List.cons_append,
      List.cons.injEq]
    rw [isPrefixList_iff_exists as bs]
    constructor
    · rintro ⟨rfl, r, rfl⟩
      exact ⟨r, rfl, rfl⟩
    · rintro ⟨r, rfl, rfl⟩
      exact ⟨rfl, r, rfl⟩

theorem isPrefixList_trichot : ∀ (p l r : List Char),
    isPrefixList p (l ++ r) = true → isPrefixList p l = true ∨ isPrefixList l p = true
  | [], _, _, _ => Or.inl rfl
  | _ :: _, [], _, _ => Or.inr rfl
  | a :: as, b :: bs, r, h => by
    simp only [List.cons_append, isPrefixList, Bool.and_eq_true, beq_iff_eq] at h ⊢
    obtain ⟨rfl, h2⟩ := h
    rcases isPrefixList_trichot as bs r h2 with h3 | h3
    · exact Or.inl ⟨rfl, h3⟩
    · exact Or.inr ⟨rfl, h3⟩

theorem startsWith_excl {p q k : String}
    (hpq : isPrefixList p.data q.data = false)
    (hqp : isPrefixList q.data p.data = false)
    (h : startsWithStr k q = true) : startsWithStr k p = false := by
  obtain ⟨r, hr⟩ := (isPrefixList_iff_exists q.data k.data).mp h
  cases hpk : startsWithStr k p with
  | false => rfl
  | true =>
    exfalso
    unfold startsWithStr at hpk
    rw [hr] at hpk
    rcases isPrefixList_trichot p.data q.data r hpk with h3 | h3
    · rw [hpq] at h3
      exact Bool.false_ne_true h3
    · rw [hqp] at h3
      exact Bool.false_ne_true h3

theorem splitChAux_sep (sep : Char) (l acc : List Char) :
    splitChAux sep (sep :: l) acc = acc.reverse :: splitChAux sep l [] := by
  simp [splitChAux]

theorem splitChAux_sepfree (sep : Char) :
    ∀ (xs : List Char), (∀ c ∈ xs, c ≠ sep) → ∀ (l acc : List Char),
      splitChAux sep (xs ++ l) acc = splitChAux sep l (xs.reverse ++ acc)
  | [], _, l, acc => by simp
  | x :: xs, h, l, acc => by
    have hx : x ≠ sep := h x (List.mem_cons_self x xs)
    have hrec := splitChAux_sepfree sep xs
      (fun c hc => h c (List.mem_cons_of_mem x hc)) l (x :: acc)
    simp only [List.cons_append, splitChAux]
    rw [if_neg (by simp [hx])]
    exact hrec.trans (by simp)

theorem splitChAux_sepfree_all (sep : Char) (xs : List Char)
    (h : ∀ c ∈ xs, c ≠ sep) (acc : List Char) :
    splitChAux sep xs acc = [acc.reverse ++ xs] := by
  have h2 := splitChAux_sepfree sep xs h [] acc
  simpa [splitChAux] using h2

theorem mem_stripPlus {c : Char} : ∀ {l : List Char}, c ∈ l → c ≠ '+' → c ∈ stripPlus l
  | [], h, _ => absurd h (by simp)
  | a :: as, h, hne => by
    show c ∈ if a = '+' then as else a :: as
    by_cases ha : a = '+'
    · rw [if_pos ha]
      rcases List.mem_cons.mp h with h1 | h1
      · exact absurd (h1.trans ha) hne
      · exact h1
    · rw [if_neg ha]
      exact h

theorem parseUsize_ne_dot {s : String} {v : Nat} (h : parseUsize s = some v) :
    ∀ c ∈ s.data, c ≠ '.' := by
  unfold parseUsize at h
  by_cases hemp : (stripPlus s.data).isEmpty
  · rw [if_pos hemp] at h
    exact absurd h (by simp)
  · rw [if_neg hemp] at h
    by_cases hall : (stripPlus s.data).all Char.isDigit
    · intro c hc hceq
      subst hceq
      have hmem : '.' ∈ stripPlus s.data := mem_stripPlus hc (by decide)
      have hdig := List.all_eq_true.mp hall '.' hmem
      exact absurd hdig (by decide)
    · rw [if_neg hall] at h
      exact absurd h (by simp)

theorem foldl_lastColon_nocolon :
    ∀ (l : List Char), (∀ c ∈ l, c ≠ ':') → ∀ (acc : List Char),
      List.foldl (fun acc c => if c == ':' then [] else acc ++ [c]) acc l = acc ++ l
  | [], _, acc => by simp
  | c :: cs, h, acc => by
    have hc : c ≠ ':' := h c (List.mem_cons_self c cs)
    simp only [List.foldl_cons]
    rw [if_neg (by simp [hc])]
    rw [foldl_lastColon_nocolon cs (fun x hx => h x (List.mem_cons_of_mem c hx)) (acc ++ [c])]
    simp

theorem lastColonSegment_base (n : String) (h : ∀ c ∈ n.data, c ≠ ':') :
    lastColonSegment (topicArnBase ++ n) = n := by
  unfold lastColonSegment lastColonSegmentList
  rw [data_append, List.foldl_append]
  have hbase : List.foldl (fun acc c => if c == ':' then [] else acc ++ [c]) []
      topicArnBase.data = [] := by decide
  rw [hbase, foldl_lastColon_nocolon n.data h []]
  rfl

theorem listModify_length (f : α → α) :
    ∀ (n : Nat) (l : List α), (listModify f n l).length = l.length := by
  intro n l
  induction l generalizing n with
  | nil => cases n <;> rfl
  | cons a as ih =>
    cases n with
    | zero => rfl
    | succ m => simp [listModify, ih]

theorem listModify_getElem (f : α → α) :
    ∀ (l : List α) (n i : Nat) (hi : i < l.length)
      (hi2 : i < (listModify f n l).length),
      (listModify f n l)[i] = if i = n then f l[i] else l[i] := by
  intro l
  induction l with
  | nil => intro n i hi _; exact absurd hi (by simp)
  | cons a as ih =>
    intro n i hi hi2
    cases n with
    | zero =>
      cases i with
      | zero => simp [listModify]
      | succ j => simp [listModify]
    | succ m =>
      cases i with
      | zero => simp [listModify]
      | succ j =>
        have hj : j < as.length := by simpa using hi
        have hj2 : j < (listModify f m as).length := by
          rw [listModify_length]; exact hj
        simp only [listModify, List.getElem_cons_succ]
        rw [ih m j hj hj2]
        by_cases hjm : j = m
        · simp [hjm]
        · rw [if_neg hjm, if_neg (by omega)]

theorem find?_append_none {α : Type} {p : α → Bool} {l1 : List α}
    (h : l1.find? p = none) (l2 : List α) :
    (l1 ++ l2).find? p = l2.find? p := by
  induction l1 with
  | nil => rfl
  | cons a as ih =>
    cases hpa : p a with
    | true =>
      rw [List.find?_cons_of_pos _ hpa] at h
      exact absurd h (by simp)
    | false =>
      rw [List.find?_cons_of_neg _ (by simp [hpa])] at h
      simpa [List.find?_cons_of_neg _ (by simp [hpa] : ¬p a = true)] using ih h

theorem find?_append_some {α : Type} {p : α → Bool} {l1 : List α} {a : α}
    (h : l1.find? p = some a) (l2 : List α) :
    (l1 ++ l2).find? p = some a := by
  induction l1 with
  | nil => exact absurd h (by simp)
  | cons b bs ih =>
    cases hpb : p b with
    | true =>
      rw [List.find?_cons_of_pos _ hpb] at h
      simpa [List.find?_cons_of_pos _ hpb] using h
    | false =>
      rw [List.find?_cons_of_neg _ (by simp [hpb])] at h
      simpa [List.find?_cons_of_neg _ (by simp [hpb] : ¬p b = true)] using ih h

theorem find?_fst_map_ne {r : Registry} {k k' : String} {t : Topic} (hne : k' ≠ k) :
    (r.map (fun p => if p.1 == k then (k, t) else p)).find? (fun p => p.1 == k')
      = r.find? (fun p => p.1 == k') := by
  induction r with
  | nil => rfl
  | cons p rs ih =>
    simp only [List.map_cons]
    by_cases hp : p.1 = k
    · rw [if_pos (by simpa using hp)]
      rw [List.find?_cons_of_neg _ (by simp [Ne.symm hne]),
        List.find?_cons_of_neg _ (by simp [hp, Ne.symm hne])]
      exact ih
    · rw [if_neg (by simpa using hp)]
      by_cases hp' : p.1 = k'
      · rw [List.find?_cons_of_pos _ (by simpa using hp'),
          List.find?_cons_of_pos _ (by simpa using hp')]
      · rw [List.find?_cons_of_neg _ (by simp [hp']),
          List.find?_cons_of_neg _ (by simp [hp'])]
        exact ih

theorem find?_fst_map_eq {r : Registry} {k : String} {t : Topic}
    (hany : r.any (fun p => p.1 == k) = true) :
    (r.map (fun p => if p.1 == k then (k, t) else p)).find? (fun p => p.1 == k)
      = some (k, t) := by
  induction r with
  | nil => simp at hany
  | cons p rs ih =>
    simp only [List.map_cons]
    by_cases hp : p.1 = k
    · rw [if_pos (by simpa using hp)]
      rw [List.find?_cons_of_pos _ (by simp)]
    · rw [if_neg (by simpa using hp)]
      rw [List.find?_cons_of_neg _ (by simp [hp])]
      apply ih
      simpa [hp] using hany

theorem regGet_regInsert (r : Registry) (k : String) (t : Topic) (k' : String) :
    regGet (regInsert r k t) k' = if k' = k then some t else regGet r k' := by
  unfold regInsert
  by_cases hany : r.any (fun p => p.1 == k) = true
  · rw [if_pos hany]
    by_cases hk : k' = k
    · subst hk
      unfold regGet
      rw [find?_fst_map_eq hany]
      simp
    · rw [if_neg hk]
      unfold regGet
      rw [find?_fst_map_ne hk]
  · rw [if_neg hany]
    by_cases hk : k' = k
    · subst hk
      unfold regGet
      have hnone : r.find? (fun p => p.1 == k') = none := by
        rw [List.find?_eq_none]
        intro p hp hcontra
        exact hany (List.any_eq_true.mpr ⟨p, hp, hcontra⟩)
      rw [find?_append_none hnone]
      simp
    · rw [if_neg hk]
      unfold regGet
      cases hfr : r.find? (fun p => p.1 == k') with
      | some p => rw [find?_append_some hfr]
      | none =>
        rw [find?_append_none hfr]
        have hkk : (k == k') = false := by simp [Ne.symm hk]
        simp [List.find?, hkk]

theorem applyAttr_eq_none {name : String} (t : Topic) (value : String)
    (h : name ∉ attrWhitelist) : applyAttr t name value = none := by
  simp only [attrWhitelist, List.mem_cons, List.not_mem_nil, or_false, not_or] at h
  obtain ⟨h1, h2, h3, h4, h5, h6, h7, h8, h9, h10, h11, h12, h13, h14, h15, h16,
    h17, h18, h19, h20, h21, h22, h23, h24, h25⟩ := h
  simp only [applyAttr, if_neg h1, if_neg h2, if_neg h3, if_neg h4, if_neg h5,
    if_neg h6, if_neg h7, if_neg h8, if_neg h9, if_neg h10, if_neg h11,
    if_neg h12, if_neg h13, if_neg h14, if_neg h15, if_neg h16, if_neg h17,
    if_neg h18, if_neg h19, if_neg h20, if_neg h21, if_neg h22, if_neg h23,
    if_neg h24, if_neg h25]

/-! ### Claim theorems -/

/-- Claim C1 (amended): re-invoking `create_topic` on an existing name
succeeds with the derived ARN and replaces the stored topic wholesale:
tags and attributes take the new request's values, and the subscription
list is reset to empty (not kept); all other topics are untouched. -/
theorem c1_create_topic_overwrites (state : Registry) (params : SnsRequest)
    (name : String) (t : Topic)
    (hname : params.name = some name) (_ht : regGet state name = some t) :
    (create_topic state params).1 = HResult.success (topicArnBase ++ name) ∧
    regGet (create_topic state params).2 name
      = some (freshTopic name params.tags_entry) ∧
    ∀ k, k ≠ name → regGet (create_topic state params).2 k = regGet state k := by
  refine ⟨by simp only [create_topic, hname], ?_, ?_⟩
  · simp only [create_topic, hname]
    rw [regGet_regInsert]
    simp
  · intro k hk
    simp only [create_topic, hname]
    rw [regGet_regInsert, if_neg hk]

/-- Claim C1 counterexample: topic `a` exists with one subscription, yet
after re-creating it the stored subscription list is empty, so the
existing subscriptions are not left untouched. -/
theorem c1_counterexample_subscriptions_cleared :
    regGet reg0 "a" = some t0 ∧ t0.subscriptions = [sub0] ∧
    (regGet (create_topic reg0 { action := "CreateTopic", name := some "a" }).2 "a").map
      Topic.subscriptions = some [] := by decide

/-- Witness for C1 at the concrete registry `reg0`. -/
theorem c1_witness :
    (create_topic reg0 { action := "CreateTopic", name := some "a" }).1
      = HResult.success (topicArnBase ++ "a") ∧
    regGet (create_topic reg0 { action := "CreateTopic", name := some "a" }).2 "a"
      = some (freshTopic "a" none) ∧
    regGet (create_topic reg0 { action := "CreateTopic", name := some "a" }).2 "b"
      = regGet reg0 "b" := by
  have h := c1_create_topic_overwrites reg0
    { action := "CreateTopic", name := some "a" } "a" t0 rfl (by decide)
  exact ⟨h.1, h.2.1, h.2.2 "b" (by decide)⟩

/-- Claim C2 (amended): for a subscription ARN never issued, `unsubscribe`
returns success and changes no topic's entry when the topic derived from
the ARN exists in the registry; when the derived topic is missing it
returns 404 `NotFound` (not success) and changes nothing. -/
theorem c2_unsubscribe_never_issued (state : Registry) (params : SnsRequest)
    (sarn : String)
    (hs : params.subscription_arn = some sarn)
    (hnever : ∀ p ∈ state, ∀ s ∈ p.2.subscriptions, s.subscription_arn ≠ sarn) :
    (∀ t, regGet state (lastColonSegment (stripLastColonSegment sarn)) = some t →
      (unsubscribe state params).1 = HResult.success () ∧
      ∀ k, regGet (unsubscribe state params).2 k = regGet state k) ∧
    (regGet state (lastColonSegment (stripLastColonSegment sarn)) = none →
      unsubscribe state params = (HResult.error "NotFound" "Topic not found" 404, state)) := by
  constructor
  · intro t hget
    have hget2 := hget
    unfold regGet at hget2
    obtain ⟨p, hp, hpt⟩ := Option.map_eq_some'.mp hget2
    have hpmem : p ∈ state := List.mem_of_find?_eq_some hp
    have hsubs : ∀ s ∈ t.subscriptions, (s.subscription_arn != sarn) = true := by
      intro s hsm
      have hne := hnever p hpmem s (by rw [hpt]; exact hsm)
      simpa using hne
    have hfilter : t.subscriptions.filter (fun s => s.subscription_arn != sarn)
        = t.subscriptions := List.filter_eq_self.mpr hsubs
    constructor
    · simp only [unsubscribe, hs, hget]
    · intro k
      simp only [unsubscribe, hs, hget]
      rw [hfilter]
      show regGet (regInsert state (lastColonSegment (stripLastColonSegment sarn))
        { t with subscriptions := t.subscriptions }) k = regGet state k
      rw [regGet_regInsert]
      by_cases hk : k = lastColonSegment (stripLastColonSegment sarn)
      · rw [if_pos hk, hk, hget]
      · rw [if_neg hk]
  · intro hget
    simp only [unsubscribe, hs, hget]

/-- Claim C2 counterexample: with an empty registry every ARN is trivially
never issued, yet `unsubscribe` on `"x:y"` returns 404 `NotFound`, not
success. -/
theorem c2_counterexample_missing_topic :
    (∀ p ∈ ([] : Registry), ∀ s ∈ p.2.subscriptions, s.subscription_arn ≠ "x:y") ∧
    (unsubscribe [] { action := "Unsubscribe", subscription_arn := some "x:y" }).1
      = HResult.error "NotFound" "Topic not found" 404 := by
  constructor
  · intro p hp
    exact absurd hp (by simp)
  · decide

/-- Witness for C2: unsubscribing a never-issued ARN whose derived topic
`a` exists succeeds and leaves the registry entry unchanged. -/
theorem c2_witness :
    (unsubscribe reg0 reqUnsubTok2).1 = HResult.success () ∧
    regGet (unsubscribe reg0 reqUnsubTok2).2 "a" = regGet reg0 "a" := by
  have h := c2_unsubscribe_never_issued reg0 reqUnsubTok2
    (topicArnBase ++ "a:tok2") rfl (by decide)
  have h2 := h.1 t0 (by decide)
  exact ⟨h2.1, h2.2 "a"⟩

/-- Claim C4: once the topic resolves and the message is present,
`publish` reports success with the fresh message id, and the handler
result is the same whatever the per-subscription delivery outcomes are. -/
theorem c4_publish_ignores_delivery_failures (state : Registry)
    (params : SnsRequest) (arn m msgId : String) (t : Topic)
    (deliver : Subscription → Bool)
    (h1 : params.topic_arn = some arn) (h2 : params.message = some m)
    (ht : regGet state (lastColonSegment arn) = some t) :
    (publish state params deliver msgId).1 = HResult.success msgId ∧
    ∀ d2 : Subscription → Bool,
      (publish state params d2 msgId).1 = (publish state params deliver msgId).1 := by
  have hcomp : ∀ d : Subscription → Bool,
      (publish state params d msgId).1 = HResult.success msgId := by
    intro d
    simp only [publish, h1, h2, ht]
  exact ⟨hcomp deliver, fun d2 => (hcomp d2).trans (hcomp deliver).symm⟩

/-- Witness for C4: publishing to topic `a` (one SQS subscription) with a
failing delivery oracle still yields success with the message id. -/
theorem c4_witness :
    (publish reg0 reqPublishA (fun _ => false) "mid-1").1
      = HResult.success "mid-1" :=
  (c4_publish_ignores_delivery_failures reg0 reqPublishA
    (topicArnBase ++ "a") "hello" "mid-1" t0 (fun _ => false) rfl rfl (by decide)).1

/-- Claim C5: `set_topic_attributes` on an existing topic with an
attribute name outside the whitelist returns 400 `InvalidParameter`
("Attribute not supported") and leaves the registry exactly as it was. -/
theorem c5_set_topic_attributes_invalid_name (state : Registry)
    (params : SnsRequest) (arn aname aval : String) (t : Topic)
    (h1 : params.topic_arn = some arn)
    (h2 : params.attribute_name = some aname)
    (h3 : params.attribute_value = some aval)
    (ht : regGet state (lastColonSegment arn) = some t)
    (hwl : aname ∉ attrWhitelist) :
    set_topic_attributes state params
      = (HResult.error "InvalidParameter" "Attribute not supported" 400, state) := by
  simp only [set_topic_attributes, h1, h2, h3, ht, applyAttr_eq_none t aval hwl]

/-- Witness for C5 with `AttributeName=Bogus` on topic `a`. -/
theorem c5_witness :
    set_topic_attributes reg0 reqSetBogus
      = (HResult.error "InvalidParameter" "Attribute not supported" 400, reg0) :=
  c5_set_topic_attributes_invalid_name reg0 reqSetBogus
    (topicArnBase ++ "a") "Bogus" "x" t0 rfl rfl rfl (by decide) (by decide)

/-- Claim C6 (code bug evidence): publishing to topic `a`, which has one
SQS subscription, produces the event trace acquire–send–release: the
outbound delivery happens strictly between acquiring and releasing the
registry read guard, because in the source the guard returned by
`state.topics.get` lives until the end of the `if let` block that contains
the delivery loop.  The claim (and spec §4.2/§5) requires the lock to be
released before any delivery begins. -/
theorem c6_lock_held_during_delivery :
    publishEvents reg0 reqPublishA
      = [PubEvent.lockAcquire "a",
         PubEvent.sqsSend "http://localhost:4566/queue/q" "hello",
         PubEvent.lockRelease "a"] := by decide

/-- Claim C8 (amended): for every topic name without a colon,
`create_topic` followed by `get_topic_attributes` on the derived ARN
succeeds, and the rendered attributes contain `TopicArn` equal to the
fixed prefix plus the name.  (Names containing `':'` break the round trip
because the lookup key is the ARN's last colon segment.) -/
theorem c8_create_then_get (state : Registry) (params : SnsRequest) (n : String)
    (hname : params.name = some n) (hcolon : ∀ c ∈ n.data, c ≠ ':') :
    get_topic_attributes (create_topic state params).2
        { action := "GetTopicAttributes", topic_arn := some (topicArnBase ++ n) }
      = HResult.success (renderTopicAttributes (freshTopic n params.tags_entry)) ∧
    ("TopicArn", topicArnBase ++ n)
      ∈ renderTopicAttributes (freshTopic n params.tags_entry) := by
  constructor
  · simp only [get_topic_attributes]
    rw [lastColonSegment_base n hcolon]
    simp only [create_topic, hname]
    show (match regGet (regInsert state n (freshTopic n params.tags_entry)) n with
      | some t => HResult.success (renderTopicAttributes t)
      | none => HResult.error "NotFound" "Topic not found" 404) = _
    rw [regGet_regInsert]
    simp
  · simp [renderTopicAttributes, freshTopic]

/-- Claim C8 counterexample: the name `"a:b"` contains a colon, so the
derived lookup key is `"b"` and the freshly created topic is not found. -/
theorem c8_counterexample_colon_name :
    get_topic_attributes
        (create_topic [] { action := "CreateTopic", name := some "a:b" }).2
        { action := "GetTopicAttributes", topic_arn := some (topicArnBase ++ "a:b") }
      = HResult.error "NotFound" "Topic not found" 404 := by decide

/-- Witness for C8 at the colon-free name `mytopic`. -/
theorem c8_witness :
    get_topic_attributes
        (create_topic [] { action := "CreateTopic", name := some "mytopic" }).2
        { action := "GetTopicAttributes", topic_arn := some (topicArnBase ++ "mytopic") }
      = HResult.success (renderTopicAttributes (freshTopic "mytopic" none)) ∧
    ("TopicArn", topicArnBase ++ "mytopic")
      ∈ renderTopicAttributes (freshTopic "mytopic" none) :=
  c8_create_then_get [] { action := "CreateTopic", name := some "mytopic" }
    "mytopic" rfl (by decide)

/-- Claim C10: `get_topic_attributes` on an existing topic renders the
full attribute map, which always contains `SubscriptionsConfirmed` equal
to the decimal length of the topic's subscription list and the literal
`"0"` entries `SubscriptionsPending` and `SubscriptionsDeleted`. -/
theorem c10_subscription_counters (state : Registry) (params : SnsRequest)
    (arn : String) (t : Topic)
    (h1 : params.topic_arn = some arn)
    (ht : regGet state (lastColonSegment arn) = some t) :
    get_topic_attributes state params = HResult.success (renderTopicAttributes t) ∧
    ("SubscriptionsConfirmed", toString t.subscriptions.length)
      ∈ renderTopicAttributes t ∧
    ("SubscriptionsPending", "0") ∈ renderTopicAttributes t ∧
    ("SubscriptionsDeleted", "0") ∈ renderTopicAttributes t := by
  refine ⟨by simp only [get_topic_attributes, h1, ht], ?_, ?_, ?_⟩
  · unfold renderTopicAttributes
    exact List.mem_append_right _ (by simp)
  · unfold renderTopicAttributes
    exact List.mem_append_right _ (by simp)
  · unfold renderTopicAttributes
    exact List.mem_append_right _ (by simp)

/-- Witness for C10 on topic `a` with one subscription. -/
theorem c10_witness :
    get_topic_attributes reg0 reqGetA
      = HResult.success (renderTopicAttributes t0) ∧
    ("SubscriptionsConfirmed", toString t0.subscriptions.length)
      ∈ renderTopicAttributes t0 := by
  have h := c10_subscription_counters reg0 reqGetA
    (topicArnBase ++ "a") t0 rfl (by decide)
  exact ⟨h.1, h.2.1⟩

theorem tagkeys_not_tags {k : String}
    (h : startsWithStr k "TagKeys.member." = true) :
    startsWithStr k "Tags.member." = false :=
  startsWith_excl (by decide) (by decide) h

theorem attrs_not_tags {k : String}
    (h : startsWithStr k "Attributes.entry." = true) :
    startsWithStr k "Tags.member." = false :=
  startsWith_excl (by decide) (by decide) h

theorem tags_not_tagkeys {k : String}
    (h : startsWithStr k "Tags.member." = true) :
    startsWithStr k "TagKeys.member." = false :=
  startsWith_excl (by decide) (by decide) h

theorem attrs_not_tagkeys {k : String}
    (h : startsWithStr k "Attributes.entry." = true) :
    startsWithStr k "TagKeys.member." = false :=
  startsWith_excl (by decide) (by decide) h

theorem tags_not_attrs {k : String}
    (h : startsWithStr k "Tags.member." = true) :
    startsWithStr k "Attributes.entry." = false :=
  startsWith_excl (by decide) (by decide) h

theorem tagkeys_not_attrs {k : String}
    (h : startsWithStr k "TagKeys.member." = true) :
    startsWithStr k "Attributes.entry." = false :=
  startsWith_excl (by decide) (by decide) h

theorem tagsStep_drop {k : String} (hd : droppedKey k) (acc : List TagEntry)
    (v : String) : tagsStep acc (k, v) = acc := by
  unfold tagsStep
  rcases hd with ⟨hs, hb⟩ | ⟨hs, hb⟩ | ⟨hs, hb⟩ | ⟨h1, _, _⟩
  · rw [hs, if_pos rfl]
    unfold badIdxKey at hb
    split at hb
    · next a b idxStr fld heq =>
      rw [heq]
      have hz : (parseUsize idxStr).getD 0 = 0 := by simpa using hb
      simp [hz]
    · next a b idxStr heq =>
      rw [heq]
    · exact absurd hb (by simp)
  · rw [tagkeys_not_tags hs]
    simp
  · rw [attrs_not_tags hs]
    simp
  · rw [h1]
    simp

theorem tagKeysStep_drop {k : String} (hd : droppedKey k) (acc : List String)
    (v : String) : tagKeysStep acc (k, v) = acc := by
  unfold tagKeysStep
  rcases hd with ⟨hs, hb⟩ | ⟨hs, hb⟩ | ⟨hs, hb⟩ | ⟨_, h2, _⟩
  · rw [tags_not_tagkeys hs]
    simp
  · rw [hs, if_pos rfl]
    unfold badIdxKey at hb
    split at hb
    · next a b idxStr fld heq =>
      rw [heq]
    · next a b idxStr heq =>
      rw [heq]
      have hz : (parseUsize idxStr).getD 0 = 0 := by simpa using hb
      simp [hz]
    · exact absurd hb (by simp)
  · rw [attrs_not_tagkeys hs]
    simp
  · rw [h2]
    simp

theorem attributesStep_drop {k : String} (hd : droppedKey k)
    (acc : List AttributeEntry) (v : String) : attributesStep acc (k, v) = acc := by
  unfold attributesStep
  rcases hd with ⟨hs, hb⟩ | ⟨hs, hb⟩ | ⟨hs, hb⟩ | ⟨_, _, h3⟩
  · rw [tags_not_attrs hs]
    simp
  · rw [tagkeys_not_attrs hs]
    simp
  · rw [hs, if_pos rfl]
    unfold badIdxKey at hb
    split at hb
    · next a b idxStr fld heq =>
      rw [heq]
      have hz : (parseUsize idxStr).getD 0 = 0 := by simpa using hb
      simp [hz]
    · next a b idxStr heq =>
      rw [heq]
    · exact absurd hb (by simp)
  · rw [h3]
    simp

theorem foldl_drop_invariant {β : Type} (f : β → String × String → β)
    {k v : String} (hstep : ∀ acc, f acc (k, v) = acc)
    (l1 l2 : List (String × String)) (i : β) :
    List.foldl f i (l1 ++ (k, v) :: l2) = List.foldl f i (l1 ++ l2) := by
  rw [List.foldl_append, List.foldl_append, List.foldl_cons, hstep]

/-- Claim C7: a group key whose index segment is `0` or not a decimal
integer, and every key belonging to no recognized group, is silently
dropped by all three field-group decoders: removing the key from the form
leaves every decoder result unchanged (decoding is a total function, so
no error is possible). -/
theorem c7_dropped_keys_ignored (k v : String) (l1 l2 : List (String × String))
    (hd : droppedKey k) :
    deserialize_tags (l1 ++ (k, v) :: l2) = deserialize_tags (l1 ++ l2) ∧
    deserialize_tag_keys (l1 ++ (k, v) :: l2) = deserialize_tag_keys (l1 ++ l2) ∧
    deserialize_attributes (l1 ++ (k, v) :: l2) = deserialize_attributes (l1 ++ l2) := by
  refine ⟨?_, ?_, ?_⟩
  · unfold deserialize_tags
    rw [foldl_drop_invariant tagsStep (fun acc => tagsStep_drop hd acc v) l1 l2 []]
  · unfold deserialize_tag_keys
    rw [foldl_drop_invariant tagKeysStep (fun acc => tagKeysStep_drop hd acc v) l1 l2 []]
  · unfold deserialize_attributes
    rw [foldl_drop_invariant attributesStep (fun acc => attributesStep_drop hd acc v) l1 l2 []]

/-- Witness for C7: the zero-index key `Tags.member.0.Key` contributes
nothing to any group. -/
theorem c7_witness :
    deserialize_tags [("Tags.member.0.Key", "z"), ("Tags.member.1.Key", "a")]
      = deserialize_tags [("Tags.member.1.Key", "a")] ∧
    deserialize_tag_keys [("Tags.member.0.Key", "z"), ("Tags.member.1.Key", "a")]
      = deserialize_tag_keys [("Tags.member.1.Key", "a")] ∧
    deserialize_attributes [("Tags.member.0.Key", "z"), ("Tags.member.1.Key", "a")]
      = deserialize_attributes [("Tags.member.1.Key", "a")] :=
  c7_dropped_keys_ignored "Tags.member.0.Key" "z" [] [("Tags.member.1.Key", "a")]
    (by unfold droppedKey; decide)

theorem tagsStep_nil_of_not_match {p : String × String}
    (h : tagsMatch p.1 = false) : tagsStep [] p = [] := by
  unfold tagsMatch at h
  unfold tagsStep
  cases hs : startsWithStr p.1 "Tags.member." with
  | false => simp [hs]
  | true =>
    rw [hs] at h
    simp only [Bool.true_and] at h
    rw [if_pos rfl]
    split
    · next a b idxStr fld heq =>
      rw [heq] at h
      simp only [decide_eq_false_iff_not, Nat.not_lt, Nat.le_zero] at h
      simp [h]
    · rfl

theorem tagKeysStep_nil_of_not_match {p : String × String}
    (h : tagKeysMatch p.1 = false) : tagKeysStep [] p = [] := by
  unfold tagKeysMatch at h
  unfold tagKeysStep
  cases hs : startsWithStr p.1 "TagKeys.member." with
  | false => simp [hs]
  | true =>
    rw [hs] at h
    simp only [Bool.true_and] at h
    rw [if_pos rfl]
    split
    · next a b idxStr heq =>
      rw [heq] at h
      simp only [decide_eq_false_iff_not, Nat.not_lt, Nat.le_zero] at h
      simp [h]
    · rfl

theorem attributesStep_nil_of_not_match {p : String × String}
    (h : attributesMatch p.1 = false) : attributesStep [] p = [] := by
  unfold attributesMatch at h
  unfold attributesStep
  cases hs : startsWithStr p.1 "Attributes.entry." with
  | false => simp [hs]
  | true =>
    rw [hs] at h
    simp only [Bool.true_and] at h
    rw [if_pos rfl]
    split
    · next a b idxStr fld heq =>
      rw [heq] at h
      simp only [decide_eq_false_iff_not, Nat.not_lt, Nat.le_zero] at h
      simp [h]
    · rfl

theorem foldl_tagsStep_nil {form : List (String × String)}
    (h : ∀ p ∈ form, tagsMatch p.1 = false) :
    form.foldl tagsStep [] = [] := by
  induction form with
  | nil => rfl
  | cons p ps ih =>
    rw [List.foldl_cons, tagsStep_nil_of_not_match (h p (List.mem_cons_self p ps))]
    exact ih (fun q hq => h q (List.mem_cons_of_mem p hq))

theorem foldl_tagKeysStep_nil {form : List (String × String)}
    (h : ∀ p ∈ form, tagKeysMatch p.1 = false) :
    form.foldl tagKeysStep [] = [] := by
  induction form with
  | nil => rfl
  | cons p ps ih =>
    rw [List.foldl_cons, tagKeysStep_nil_of_not_match (h p (List.mem_cons_self p ps))]
    exact ih (fun q hq => h q (List.mem_cons_of_mem p hq))

theorem foldl_attributesStep_nil {form : List (String × String)}
    (h : ∀ p ∈ form, attributesMatch p.1 = false) :
    form.foldl attributesStep [] = [] := by
  induction form with
  | nil => rfl
  | cons p ps ih =>
    rw [List.foldl_cons, attributesStep_nil_of_not_match (h p (List.mem_cons_self p ps))]
    exact ih (fun q hq => h q (List.mem_cons_of_mem p hq))

/-- Claim C9: when no submitted key matches a repeating group, that
group's decoder yields `none` (absent), never `some []`; and a handler
requiring the group — `tag_resource` — rejects the absent case with 400
`InvalidParameter` "Missing Tags" and no state change. -/
theorem c9_absent_groups (form : List (String × String)) (state : Registry)
    (rarn : String) :
    ((∀ p ∈ form, tagsMatch p.1 = false) → deserialize_tags form = none) ∧
    ((∀ p ∈ form, tagKeysMatch p.1 = false) → deserialize_tag_keys form = none) ∧
    ((∀ p ∈ form, attributesMatch p.1 = false) → deserialize_attributes form = none) ∧
    tag_resource state { action := "TagResource", resource_arn := some rarn, tags_entry := none }
      = (HResult.error "InvalidParameter" "Missing Tags" 400, state) := by
  refine ⟨?_, ?_, ?_, rfl⟩
  · intro h
    unfold deserialize_tags
    rw [foldl_tagsStep_nil h]
    rfl
  · intro h
    unfold deserialize_tag_keys
    rw [foldl_tagKeysStep_nil h]
    rfl
  · intro h
    unfold deserialize_attributes
    rw [foldl_attributesStep_nil h]
    rfl

/-- Witness for C9: a form with only scalar keys decodes every group to
`none`, and `tag_resource` rejects the request built from it. -/
theorem c9_witness :
    deserialize_tags [("Action", "TagResource"), ("ResourceArn", topicArnBase ++ "a")]
      = none ∧
    tag_resource reg0 { action := "TagResource", resource_arn := some (topicArnBase ++ "a"), tags_entry := none }
      = (HResult.error "InvalidParameter" "Missing Tags" 400, reg0) := by
  have h := c9_absent_groups
    [("Action", "TagResource"), ("ResourceArn", topicArnBase ++ "a")]
    reg0 (topicArnBase ++ "a")
  exact ⟨h.1 (by decide), h.2.2.2⟩

theorem mkTagKey_data (s f : String) :
    (mkTagKey s f).data
      = 'T' :: 'a' :: 'g' :: 's' :: '.' :: 'm' :: 'e' :: 'm' :: 'b' :: 'e' :: 'r' :: '.' ::(s.data ++ '.' :: f.data) := by
  have h1 : ("Tags.member." : String).data
      = ['T','a','g','s','.','m','e','m','b','e','r','.'] := rfl
  have h2 : ("." : String).data = ['.'] := rfl
  simp [mkTagKey, data_append, h1, h2]

theorem startsWith_mkTagKey (s f : String) :
    startsWithStr (mkTagKey s f) "Tags.member." = true := by
  apply (isPrefixList_iff_exists _ _).mpr
  refine ⟨s.data ++ '.' :: f.data, ?_⟩
  rw [mkTagKey_data]
  rfl

theorem splitCh_mkTagKey (s f : String) (hs : ∀ c ∈ s.data, c ≠ '.')
    (hf : ∀ c ∈ f.data, c ≠ '.') :
    splitCh '.' (mkTagKey s f) = ["Tags", "member", s, f] := by
  unfold splitCh
  rw [mkTagKey_data]
  rw [show ('T' :: 'a' :: 'g' :: 's' :: '.' :: 'm' :: 'e' :: 'm' :: 'b' :: 'e' :: 'r' :: '.' ::(s.data ++ '.' :: f.data))
      = ['T','a','g','s'] ++ '.' :: (['m','e','m','b','e','r'] ++ '.' :: (s.data ++ '.' :: f.data))
    from rfl]
  rw [splitChAux_sepfree '.' ['T','a','g','s'] (by decide)]
  rw [splitChAux_sep]
  rw [splitChAux_sepfree '.' ['m','e','m','b','e','r'] (by decide)]
  rw [splitChAux_sep]
  rw [splitChAux_sepfree '.' s.data hs]
  rw [splitChAux_sep]
  rw [splitChAux_sepfree_all '.' f.data hf]
  simp

theorem foldl_max_init (l : List TagItem) :
    ∀ i : Nat, l.foldl (fun a it => max a it.idx) i = max i (maxIdx l) := by
  induction l with
  | nil => intro i; simp [maxIdx]
  | cons it l ih =>
    intro i
    simp only [maxIdx, List.foldl_cons] at *
    rw [ih (max i it.idx), ih (max 0 it.idx)]
    omega

theorem maxIdx_concat (l : List TagItem) (it : TagItem) :
    maxIdx (l ++ [it]) = max (maxIdx l) it.idx := by
  unfold maxIdx
  rw [List.foldl_append]
  rfl

theorem le_maxIdx {l : List TagItem} {a : TagItem} (ha : a ∈ l) :
    a.idx ≤ maxIdx l := by
  induction l with
  | nil => exact absurd ha (by simp)
  | cons b bs ih =>
    have hexp : maxIdx (b :: bs) = max (max 0 b.idx) (maxIdx bs) := by
      simp only [maxIdx, List.foldl_cons]
      exact foldl_max_init bs (max 0 b.idx)
    rcases List.mem_cons.mp ha with h | h
    · subst h
      omega
    · have := ih h
      omega

theorem lookupField_append_ne {done : List TagItem} {it : TagItem} {i : Nat}
    {b : Bool} (h : i ≠ it.idx ∨ b ≠ it.fld) :
    lookupField (done ++ [it]) i b = lookupField done i b := by
  unfold lookupField
  cases hf : done.find? (fun x => x.idx == i && x.fld == b) with
  | some a => rw [find?_append_some hf]
  | none =>
    rw [find?_append_none hf]
    have hp : (it.idx == i && it.fld == b) = false := by
      rcases h with h | h
      · simp [Ne.symm h]
      · simp [Ne.symm h]
    simp [List.find?, hp]

theorem lookupField_append_eq {done : List TagItem} {it : TagItem}
    (hd : ∀ a ∈ done, a.idx ≠ it.idx ∨ a.fld ≠ it.fld) :
    lookupField (done ++ [it]) it.idx it.fld = it.val := by
  unfold lookupField
  have hnone : done.find? (fun x => x.idx == it.idx && x.fld == it.fld) = none := by
    rw [List.find?_eq_none]
    intro a ha hcontra
    simp only [Bool.and_eq_true, beq_iff_eq] at hcontra
    rcases hd a ha with h | h
    · exact h hcontra.1
    · exact h hcontra.2
  rw [find?_append_none hnone]
  simp [List.find?]

theorem lookupField_gt {done : List TagItem} {i : Nat} {b : Bool}
    (h : maxIdx done < i) : lookupField done i b = "" := by
  unfold lookupField
  have hnone : done.find? (fun x => x.idx == i && x.fld == b) = none := by
    rw [List.find?_eq_none]
    intro a ha hcontra
    simp only [Bool.and_eq_true, beq_iff_eq] at hcontra
    have := le_maxIdx ha
    omega
  rw [hnone]
  rfl

theorem specTags_getElem (items : List TagItem) (j : Nat)
    (h : j < (specTags items).length) :
    (specTags items)[j] = expectedTag items j := by
  simp [specTags]

theorem base_getElem (done : List TagItem) (L j : Nat)
    (hj : j < (specTags done
      ++ List.replicate (L - (specTags done).length) (⟨"", ""⟩ : TagEntry)).length) :
    (specTags done
      ++ List.replicate (L - (specTags done).length) (⟨"", ""⟩ : TagEntry))[j]
      = if j < maxIdx done then expectedTag done j else ⟨"", ""⟩ := by
  have hm : (specTags done).length = maxIdx done := by simp [specTags]
  by_cases hjm : j < maxIdx done
  · rw [if_pos hjm]
    rw [List.getElem_append_left (by rw [hm]; exact hjm)]
    exact specTags_getElem done j (by rw [hm]; exact hjm)
  · rw [if_neg hjm]
    rw [List.getElem_append_right (by rw [hm]; omega)]
    exact List.getElem_replicate ..

theorem modify_branch (v : String) (b : Bool) (n : Nat) (l : List TagEntry) :
    (if fldStr b = "Key" then listModify (fun e => { e with key := v }) n l
     else if fldStr b = "Value" then listModify (fun e => { e with value := v }) n l
     else l)
      = listModify (setFld b v) n l := by
  cases b
  · rw [show fldStr false = "Value" from rfl]
    rw [if_neg (by decide), if_pos rfl]
    rfl
  · rw [show fldStr true = "Key" from rfl, if_pos rfl]
    rfl

theorem padded_modify_spec (done : List TagItem) (it : TagItem) (h1 : 1 ≤ it.idx)
    (hd : ∀ a ∈ done, a.idx ≠ it.idx ∨ a.fld ≠ it.fld) :
    listModify (setFld it.fld it.val) (it.idx - 1)
      (specTags done
        ++ List.replicate (it.idx - (specTags done).length) (⟨"", ""⟩ : TagEntry))
      = specTags (done ++ [it]) := by
  have hm : (specTags done).length = maxIdx done := by simp [specTags]
  have hbl : (specTags done
      ++ List.replicate (it.idx - (specTags done).length) (⟨"", ""⟩ : TagEntry)).length
      = max (maxIdx done) it.idx := by
    rw [List.length_append, List.length_replicate, hm]
    omega
  have hsl : (specTags (done ++ [it])).length = max (maxIdx done) it.idx := by
    simp [specTags, maxIdx_concat]
  apply List.ext_getElem
  · rw [listModify_length, hbl, hsl]
  · intro j hj1 hj2
    have hjb : j < (specTags done
        ++ List.replicate (it.idx - (specTags done).length) (⟨"", ""⟩ : TagEntry)).length := by
      rw [listModify_length] at hj1
      exact hj1
    rw [listModify_getElem _ _ _ _ hjb hj1]
    rw [base_getElem done it.idx j hjb]
    rw [specTags_getElem (done ++ [it]) j hj2]
    by_cases hje : j = it.idx - 1
    · rw [if_pos hje]
      have hj1eq : j + 1 = it.idx := by omega
      have hk : lookupField (done ++ [it]) (j + 1) it.fld = it.val := by
        rw [hj1eq]
        exact lookupField_append_eq hd
      have hnf : lookupField (done ++ [it]) (j + 1) (!it.fld)
          = lookupField done (j + 1) (!it.fld) :=
        lookupField_append_ne (Or.inr (by cases it.fld <;> decide))
      have hz : maxIdx done < j + 1 → lookupField done (j + 1) (!it.fld) = "" :=
        fun hgt => lookupField_gt hgt
      by_cases hjm : j < maxIdx done
      · rw [if_pos hjm]
        cases hb : it.fld
        · rw [hb] at hk hnf
          simp only [Bool.not_false] at hnf
          show (⟨(expectedTag done j).key, it.val⟩ : TagEntry)
            = ⟨lookupField (done ++ [it]) (j + 1) true,
               lookupField (done ++ [it]) (j + 1) false⟩
          rw [hk, hnf]
          rfl
        · rw [hb] at hk hnf
          simp only [Bool.not_true] at hnf
          show (⟨it.val, (expectedTag done j).value⟩ : TagEntry)
            = ⟨lookupField (done ++ [it]) (j + 1) true,
               lookupField (done ++ [it]) (j + 1) false⟩
          rw [hk, hnf]
          rfl
      · rw [if_neg hjm]
        have hgt : maxIdx done < j + 1 := by omega
        have hz2 := hz hgt
        cases hb : it.fld
        · rw [hb] at hk hnf hz2
          simp only [Bool.not_false] at hnf hz2
          show (⟨"", it.val⟩ : TagEntry)
            = ⟨lookupField (done ++ [it]) (j + 1) true,
               lookupField (done ++ [it]) (j + 1) false⟩
          rw [hk, hnf, hz2]
        · rw [hb] at hk hnf hz2
          simp only [Bool.not_true] at hnf hz2
          show (⟨it.val, ""⟩ : TagEntry)
            = ⟨lookupField (done ++ [it]) (j + 1) true,
               lookupField (done ++ [it]) (j + 1) false⟩
          rw [hk, hnf, hz2]
    · rw [if_neg hje]
      have hne1 : j + 1 ≠ it.idx := by omega
      have hT : lookupField (done ++ [it]) (j + 1) true
          = lookupField done (j + 1) true := lookupField_append_ne (Or.inl hne1)
      have hF : lookupField (done ++ [it]) (j + 1) false
          = lookupField done (j + 1) false := lookupField_append_ne (Or.inl hne1)
      by_cases hjm : j < maxIdx done
      · rw [if_pos hjm]
        show expectedTag done j
          = (⟨lookupField (done ++ [it]) (j + 1) true,
              lookupField (done ++ [it]) (j + 1) false⟩ : TagEntry)
        rw [hT, hF]
        rfl
      · rw [if_neg hjm]
        have hgt : maxIdx done < j + 1 := by omega
        show (⟨"", ""⟩ : TagEntry)
          = ⟨lookupField (done ++ [it]) (j + 1) true,
             lookupField (done ++ [it]) (j + 1) false⟩
        rw [hT, hF, lookupField_gt hgt, lookupField_gt hgt]

theorem tagsStep_spec (done : List TagItem) (it : TagItem)
    (hp : parseUsize it.idxStr = some it.idx) (h1 : 1 ≤ it.idx)
    (hd : ∀ a ∈ done, a.idx ≠ it.idx ∨ a.fld ≠ it.fld) :
    tagsStep (specTags done) (tagItemPair it) = specTags (done ++ [it]) := by
  have hsdot : ∀ c ∈ it.idxStr.data, c ≠ '.' := parseUsize_ne_dot hp
  have hfdot : ∀ c ∈ (fldStr it.fld).data, c ≠ '.' := by
    cases it.fld <;> decide
  unfold tagsStep
  simp only [tagItemPair]
  rw [startsWith_mkTagKey, if_pos rfl]
  rw [splitCh_mkTagKey it.idxStr (fldStr it.fld) hsdot hfdot]
  simp only [hp, Option.getD_some]
  rw [if_pos (show 0 < it.idx from h1)]
  rw [modify_branch]
  exact padded_modify_spec done it h1 hd

theorem tags_fold_spec : ∀ (rest done : List TagItem),
    (∀ a ∈ rest, parseUsize a.idxStr = some a.idx ∧ 1 ≤ a.idx) →
    ((done ++ rest).Pairwise fun a b => a.idx ≠ b.idx ∨ a.fld ≠ b.fld) →
    List.foldl tagsStep (specTags done) (rest.map tagItemPair)
      = specTags (done ++ rest)
  | [], done, _, _ => by simp
  | it :: rest, done, hpr, hpw => by
    rw [List.map_cons, List.foldl_cons]
    have hit := hpr it (List.mem_cons_self it rest)
    have hd : ∀ a ∈ done, a.idx ≠ it.idx ∨ a.fld ≠ it.fld := by
      rw [List.pairwise_append] at hpw
      intro a ha
      exact hpw.2.2 a ha it (List.mem_cons_self it rest)
    rw [tagsStep_spec done it hit.1 hit.2 hd]
    have hpw2 : ((done ++ [it]) ++ rest).Pairwise
        (fun a b => a.idx ≠ b.idx ∨ a.fld ≠ b.fld) := by
      simpa [List.append_assoc] using hpw
    have hrec := tags_fold_spec rest (done ++ [it])
      (fun a ha => hpr a (List.mem_cons_of_mem it ha)) hpw2
    rw [hrec]
    simp [List.append_assoc]

/-- Claim C3: for every set of submitted `Tags.member.<n>.Key` /
`Tags.member.<n>.Value` fields with positive integer indices (each
`(index, subfield)` pair submitted at most once), in whatever order they
arrive, `deserialize_tags` yields the index-ordered list whose length is
the maximum submitted index, whose entry at position `j` carries exactly
the values submitted for index `j + 1`, with empty-string placeholders for
every subfield not supplied. -/
theorem c3_tags_decoder_assembly (items : List TagItem)
    (hp : ∀ a ∈ items, parseUsize a.idxStr = some a.idx ∧ 1 ≤ a.idx)
    (hdist : items.Pairwise fun a b => a.idx ≠ b.idx ∨ a.fld ≠ b.fld)
    (hne : items ≠ []) :
    deserialize_tags (items.map tagItemPair)
      = some ((List.range (maxIdx items)).map (expectedTag items)) := by
  have hfold := tags_fold_spec items [] hp (by simpa using hdist)
  simp only [List.nil_append] at hfold
  rw [show specTags ([] : List TagItem) = ([] : List TagEntry) from rfl] at hfold
  unfold deserialize_tags
  rw [hfold]
  have hlen : (specTags items).length = maxIdx items := by simp [specTags]
  have hmax : 1 ≤ maxIdx items := by
    cases items with
    | nil => exact absurd rfl hne
    | cons a as =>
      have ha := (hp a (List.mem_cons_self a as)).2
      have hle := le_maxIdx (List.mem_cons_self a as)
      omega
  have hne2 : (specTags items).isEmpty = false := by
    cases hsp : specTags items with
    | nil =>
      rw [hsp] at hlen
      simp at hlen
      omega
    | cons x xs => rfl
  show (if (specTags items).isEmpty = true then none else some (specTags items))
    = some ((List.range (maxIdx items)).map (expectedTag items))
  rw [hne2]
  rfl

/-- Witness for C3: the two concrete submissions from the claim, decoded
through `c3_tags_decoder_assembly`. -/
theorem c3_witness :
    deserialize_tags [("Tags.member.2.Key", "b"), ("Tags.member.2.Value", "2"),
        ("Tags.member.1.Key", "a"), ("Tags.member.1.Value", "1")]
      = some [⟨"a", "1"⟩, ⟨"b", "2"⟩] ∧
    deserialize_tags [("Tags.member.3.Key", "c")]
      = some [⟨"", ""⟩, ⟨"", ""⟩, ⟨"c", ""⟩] := by
  have h2 := c3_tags_decoder_assembly items2 (by decide) (by decide) (by decide)
  have h3 := c3_tags_decoder_assembly items3 (by decide) (by decide) (by decide)
  constructor
  · exact (show deserialize_tags [("Tags.member.2.Key", "b"), ("Tags.member.2.Value", "2"),
        ("Tags.member.1.Key", "a"), ("Tags.member.1.Value", "1")]
      = deserialize_tags (items2.map tagItemPair) by decide).trans (h2.trans (by decide))
  · exact (show deserialize_tags [("Tags.member.3.Key", "c")]
      = deserialize_tags (items3.map tagItemPair) by decide).trans (h3.trans (by decide))

end Sns
